import Mathlib

set_option maxRecDepth 100000

/-
A shallow embedding of src/video.c (a video thumbnail frame selector).

Modelling conventions:
  - C `double` arithmetic is modelled over ℚ (the counts involved are small
    integers, so the modelled values are the exact values the doubles denote).
  - C `int` counters and histogram counts are modelled as ℕ / ℤ; no overflow
    occurs at the sizes involved.
  - The external FFmpeg collaborators (demuxer, decoder, scaler) are modelled
    as prescribed event streams / boolean outcomes, per the contracts in the
    design document.
  - Out-of-bounds array reads (undefined behaviour in C) are modelled by an
    explicit parameter holding the indeterminate memory contents (junk for
    hists[MAX_FRAMES], oobF for frames[MAX_FRAMES]).
-/

-- #define HIST_SIZE (3 * 256)
def HIST_SIZE : ℕ := 3 * 256

-- #define MAX_FRAMES 100
def MAX_FRAMES : ℕ := 100

-- FFmpeg error codes: AVERROR_EOF is FFERRTAG of EOF, AVERROR(e) is -e.
def AVERROR_EOF : ℤ := -541478725

def AVERROR_EAGAIN : ℤ := -11

def AVERROR_ENOMEM : ℤ := -12

/-- An AVFrame as used by the source: dimensions, the stride of plane 0
(linesize[0]) and the byte buffer of plane 0 (data[0]), which is NULL
(`none`) on a freshly allocated frame. Bytes are modelled as Fin 256. -/
structure Frame where
  width : ℕ
  height : ℕ
  linesize : ℕ
  data0 : Option (ℕ → Fin 256)

/-- Reading through data[0]. In every reachable state of the program the
pointer is only dereferenced when height > 0, in which case data0 is present;
the default value models the indeterminate result of a NULL read and is never
hit by the histogram loop of a reachable frame (a frame fresh from
av_frame_alloc has height = 0, so the loop body never runs). -/
def frameData (f : Frame) : ℕ → Fin 256 :=
  f.data0.getD fun _ => 0

/-- av_frame_alloc yields a zero-initialised frame: width = height = 0 and a
NULL data[0]. -/
def emptyFrame : Frame :=
  { width := 0, height := 0, linesize := 3, data0 := none }

/-- The sequence of histogram increments performed by the triple loop in
select_best_frame (lines 46-53): for each row j, column i and channel k the
bin k * 256 + p[i * 3 + k] is incremented, with p advanced by linesize[0] per
row. -/
def binIndices (f : Frame) : List ℕ :=
  (List.range f.height).flatMap fun j =>
    (List.range f.width).flatMap fun i =>
      (List.range 3).map fun k =>
        k * 256 + (frameData f (j * f.linesize + i * 3 + k)).val

/-- The histogram of one frame: the hists row after the increment loop holds,
at each bin, the number of increments that hit that bin. -/
def histF (f : Frame) : ℕ → ℕ :=
  fun b => (binIndices f).count b

/-- The number of leading non-NULL entries of the frames array. The C loop
breaks at the first i with `!f || !f->data`; f->data is an array member of a
non-NULL AVFrame and therefore never NULL, so the guard reduces to `!f`. -/
def nLeading (frames : ℕ → Option Frame) : ℕ :=
  ((List.range MAX_FRAMES).takeWhile fun i => (frames i).isSome).length

/-- The number of candidate indices the later loops of select_best_frame run
over (frame_i + 1 after the scan loop). When the scan falls off the end of
the array, frame_i is left at MAX_FRAMES (the decrementing break is skipped),
so the loops run over indices 0..MAX_FRAMES — one past both arrays. -/
def effCount (frames : ℕ → Option Frame) : ℕ :=
  if nLeading frames = MAX_FRAMES then MAX_FRAMES + 1 else nLeading frames

/-- Row i of the hists array as read by the averaging and scoring loops.
Rows never written keep their zero initialiser; index MAX_FRAMES is an
out-of-bounds read whose (indeterminate) contents are the junk parameter. -/
def histsRow (frames : ℕ → Option Frame) (junk : ℕ → ℕ) (i : ℕ) : ℕ → ℕ :=
  if i < MAX_FRAMES then
    match frames i with
    | some f => histF f
    | none => fun _ => 0
  else junk

/-- The averaging loop of select_best_frame (lines 62-68), faithfully: for
each j with j <= frame_i, the inner loop repeatedly ASSIGNS
average[j] = hists[i][j] (no accumulation), leaving the last row's value,
which is then divided by frame_i + 1.  Bins j > frame_i keep their zero
initialiser. -/
def average (frames : ℕ → Option Frame) (junk : ℕ → ℕ) : ℕ → ℚ :=
  fun j =>
    if j < effCount frames then
      ((List.range (effCount frames)).foldl
          (fun _ i => ((histsRow frames junk i j : ℕ) : ℚ)) 0)
        / (effCount frames : ℚ)
    else 0

/-- compute_error (lines 19-28): the sum over all HIST_SIZE bins of the
squared difference between the (double) median value and the histogram
count. -/
def compute_error (hist : ℕ → ℕ) (median : ℕ → ℚ) : ℚ :=
  ((List.range HIST_SIZE).map fun i =>
    (median i - (hist i : ℚ)) * (median i - (hist i : ℚ))).sum

/-- The per-candidate sum-of-squared-error score of the selection loop. -/
def scores (frames : ℕ → Option Frame) (junk : ℕ → ℕ) (i : ℕ) : ℚ :=
  compute_error (histsRow frames junk i) (average frames junk)

/-- The selection loop (lines 71-78): best_i starts at 0, min_sq_err at -1,
and candidate i displaces the current best iff i == 0 or its error is
strictly smaller. -/
def bestPair (frames : ℕ → Option Frame) (junk : ℕ → ℕ) : ℕ × ℚ :=
  (List.range (effCount frames)).foldl
    (fun s i => if i = 0 ∨ scores frames junk i < s.2 then (i, scores frames junk i) else s)
    (0, -1)

/-- select_best_frame (lines 31-81). Returns -1 exactly when the scan loop
left frame_i at -1 (frames[0] already NULL), otherwise the index chosen by
the selection loop. -/
def select_best_frame (frames : ℕ → Option Frame) (junk : ℕ → ℕ) : ℤ :=
  if nLeading frames = 0 then -1 else ((bestPair frames junk).1 : ℤ)

/-- The output Buffer of encode_frame: width, height and byte size as stored
into struct Buffer, plus the row stride dst_linesize[0] the conversion is
asked to write (a local in the C, recorded here to state the layout). -/
structure Buffer where
  width : ℕ
  height : ℕ
  size : ℕ
  stride : ℕ

/-- Modelled from the spec: the external FFmpeg helper
av_image_get_buffer_size for packed RGBA with align = 1 — 4 bytes per pixel,
no padding, hence 4 * (w * h). -/
def av_image_get_buffer_size (w h : ℕ) : ℕ :=
  4 * (w * h)

/-- encode_frame (lines 84-109). swsOk models whether sws_getContext
succeeded; scaleRet models the value returned by sws_scale, which the source
discards — the function returns 0 (success) whenever the context was
created. -/
def encode_frame (swsOk : Bool) (scaleRet : ℤ) (frame : Frame) : Except ℤ Buffer :=
  if swsOk = false then .error AVERROR_ENOMEM
  else
    .ok { width := frame.width
          height := frame.height
          size := av_image_get_buffer_size frame.width frame.height
          stride := 4 * frame.width }

/-- One round of the read loop of extract_video_image, as prescribed by the
external demuxer/decoder: the av_read_frame result, the packet's stream
index, the avcodec_send_packet result, whether av_frame_alloc succeeds, the
avcodec_receive_frame result, and the delivered frame when recv = 0. -/
structure IterEvent where
  read : ℤ
  streamIndex : ℤ
  send : ℤ
  allocOk : Bool
  recv : ℤ
  frame : Frame

/-- A decode session: the outcome of each successive round of the read
loop. -/
def Session : Type :=
  ℕ → IterEvent

/-- Decoder contract: a successfully received frame has its pixel plane
filled in. -/
def SessionWF (sess : Session) : Prop :=
  ∀ n, (sess n).recv = 0 → ((sess n).frame).data0.isSome = true

/-- The loop state of extract_video_image. The frames array always consists
of the received frames in order, then possibly one allocated-but-never-filled
frame (av_frame_alloc result awaiting data), then NULLs; it is represented by
the received list plus the pending flag. err is the C variable err; done
records that control has jumped to the end label. -/
structure SState where
  collected : List Frame
  pending : Bool
  err : ℤ
  done : Bool

def initState : SState :=
  { collected := [], pending := false, err := 0, done := false }

/-- One iteration of the read loop (lines 120-164). The quirk branch for
av_read_frame = -1 tests `frame_i && frames[0]->data`; frames[0]->data is an
array member of a non-NULL AVFrame, hence never NULL when frame_i >= 1, so
the C guard reduces to frame_i != 0. -/
def step (stream : ℤ) (ev : IterEvent) (s : SState) : SState :=
  if s.done = true then s
  else if ev.read = 0 then
    if ev.streamIndex = stream then
      if ev.send < 0 then { s with err := ev.send, done := true }
      else if s.pending = false ∧ ev.allocOk = false then
        { s with err := AVERROR_ENOMEM, done := true }
      else if ev.recv = 0 then
        if s.collected.length + 1 = MAX_FRAMES then
          { s with collected := s.collected ++ [ev.frame], pending := false,
                   err := 0, done := true }
        else
          { s with collected := s.collected ++ [ev.frame], pending := false,
                   err := 0 }
      else if ev.recv = AVERROR_EAGAIN then
        { s with pending := true, err := AVERROR_EAGAIN }
      else { s with pending := true, err := ev.recv, done := true }
    else { s with err := 0 }
  else if ev.read = -1 then
    if s.collected.length ≠ 0 then { s with err := 0, done := true }
    else { s with err := -1, done := true }
  else { s with err := ev.read, done := true }

/-- The loop state after n rounds of the read loop. -/
def run (stream : ℤ) (sess : Session) : ℕ → SState
  | 0 => initState
  | n + 1 => step stream (sess n) (run stream sess n)

/-- Termination of the sampling loop: some round jumps to the end label. -/
def SamplerTerminates (stream : ℤ) (sess : Session) : Prop :=
  ∃ n, (run stream sess n).done = true

/-- The frames array at the end label, reconstructed from the loop state. -/
def framesArr (st : SState) : ℕ → Option Frame :=
  fun i =>
    if h : i < st.collected.length then some (st.collected.get ⟨i, h⟩)
    else if i = st.collected.length ∧ st.pending = true then some emptyFrame
    else none

/-- The frame handed to encode_frame: frames[best]. oobF holds the
indeterminate contents of an out-of-bounds frames[] read (only reachable via
the frame_i = MAX_FRAMES overrun). -/
def selFrame (st : SState) (junk : ℕ → ℕ) (oobF : Frame) : Frame :=
  match framesArr st (select_best_frame (framesArr st) junk).toNat with
  | some f => f
  | none => oobF

/-- The end label of extract_video_image (lines 166-195): AVERROR_EOF is
silenced and falls through to the success case, which fails with -1 when no
frame was collected (NoFramesDecoded) or when the selector returns -1, and
otherwise encodes the selected frame; any other err is returned as is. A
returned Buffer corresponds to return value 0 with img filled in. -/
def finish (st : SState) (junk : ℕ → ℕ) (oobF : Frame) (swsOk : Bool)
    (scaleRet : ℤ) : Except ℤ Buffer :=
  if (if st.err = AVERROR_EOF then 0 else st.err) = 0 then
    if st.collected.length < 1 then .error (-1)
    else if select_best_frame (framesArr st) junk = -1 then .error (-1)
    else encode_frame swsOk scaleRet (selFrame st junk oobF)
  else .error (if st.err = AVERROR_EOF then 0 else st.err)

/-- Modelled from the spec: the AverageHistogram of section 4.3 — the per-bin
arithmetic mean of the sampled frames' histograms. -/
def specAverageHist (hs : List (ℕ → ℕ)) : ℕ → ℚ :=
  fun b => (((hs.map fun h => h b).sum : ℕ) : ℚ) / (hs.length : ℚ)

-- Concrete inputs used by the counterexamples and witnesses.

/-- A 1 x 1 frame whose sole pixel has all three channel bytes 0; its
histogram has one count in each of bins 0, 256 and 512. -/
def f0 : Frame :=
  { width := 1, height := 1, linesize := 3, data0 := some fun _ => 0 }

/-- A frames array with all MAX_FRAMES slots holding f0 (a full SampleSet of
100 collected frames, as extract_video_image produces when 100 frames
decode). -/
def full100 : ℕ → Option Frame :=
  fun i => if i < MAX_FRAMES then some f0 else none

/-- A frames array with exactly two collected frames and no pending slot. -/
def clean2 : ℕ → Option Frame :=
  fun i => if i < 2 then some f0 else none

/-- Out-of-bounds memory modelled as zeroed (a common stack content). -/
def zeroJunk : ℕ → ℕ :=
  fun _ => 0

def evGood : IterEvent :=
  { read := 0, streamIndex := 0, send := 0, allocOk := true, recv := 0, frame := f0 }

def evEAGAIN : IterEvent :=
  { read := 0, streamIndex := 0, send := 0, allocOk := true,
    recv := AVERROR_EAGAIN, frame := f0 }

def evEOF : IterEvent :=
  { read := AVERROR_EOF, streamIndex := 0, send := 0, allocOk := true,
    recv := AVERROR_EAGAIN, frame := f0 }

def evOther : IterEvent :=
  { read := 0, streamIndex := 1, send := 0, allocOk := true, recv := 0, frame := f0 }

def evQuirk : IterEvent :=
  { read := -1, streamIndex := 0, send := 0, allocOk := true,
    recv := AVERROR_EAGAIN, frame := f0 }

/-- Session: one frame, then a decoder need-more-input round (allocating a
frame slot that never receives data), then clean end of stream. -/
def sessA : Session :=
  fun n => if n = 0 then evGood else if n = 1 then evEAGAIN else evEOF

/-- Session: two frames, then a need-more-input round, then end of
stream. -/
def sessB : Session :=
  fun n => if n < 2 then evGood else if n = 2 then evEAGAIN else evEOF

/-- Session: two frames, then clean end of stream. -/
def sessC : Session :=
  fun n => if n < 2 then evGood else evEOF

/-- Session: one frame, then the generic read failure -1. -/
def sessD : Session :=
  fun n => if n = 0 then evGood else evQuirk

/-- Session that never ends and delivers a decodable target-stream frame on
every round. -/
def sessE : Session :=
  fun _ => evGood

/-- Session that reports end of stream immediately. -/
def sessF : Session :=
  fun _ => evEOF

/-- Session: one frame, then clean end of stream. -/
def sessG : Session :=
  fun n => if n = 0 then evGood else evEOF

/-- Session that never ends and only ever yields packets of a non-target
stream. -/
def sessOther : Session :=
  fun _ => evOther

-- Theorems and supporting lemmas.

lemma sum_range_count (l : List ℕ) (n : ℕ) (h : ∀ x ∈ l, x < n) :
    ∑ b ∈ Finset.range n, l.count b = l.length := by
  induction l with
  | nil => simp
  | cons a t ih =>
    have ha : a < n := h a (List.mem_cons_self a t)
    have ht : ∀ x ∈ t, x < n := fun x hx => h x (List.mem_cons_of_mem a hx)
    have hc : ∀ b : ℕ, (a :: t).count b = t.count b + if a = b then 1 else 0 := by
      intro b
      rw [List.count_cons]
      simp [beq_iff_eq]
    simp only [hc]
    rw [Finset.sum_add_distrib, ih ht, Finset.sum_ite_eq]
    simp [Finset.mem_range.mpr ha]

lemma sum_map_const_nat (l : List ℕ) (c : ℕ) :
    (l.map fun _ => c).sum = l.length * c := by
  induction l with
  | nil => simp
  | cons a t ih => simp [ih, Nat.succ_mul, Nat.add_comm]

lemma length_binIndices (f : Frame) :
    (binIndices f).length = f.height * (f.width * 3) := by
  unfold binIndices
  rw [List.length_flatMap]
  have hinner : ∀ j : ℕ,
      (List.length ∘ fun j =>
        (List.range f.width).flatMap fun i =>
          (List.range 3).map fun k =>
            k * 256 + (frameData f (j * f.linesize + i * 3 + k)).val) j
      = f.width * 3 := by
    intro j
    simp only [Function.comp]
    rw [List.length_flatMap]
    have h3 : ∀ i : ℕ,
        (List.length ∘ fun i =>
          (List.range 3).map fun k =>
            k * 256 + (frameData f (j * f.linesize + i * 3 + k)).val) i = 3 := by
      intro i
      simp
    rw [List.map_congr_left fun i _ => h3 i, sum_map_const_nat]
    simp
  rw [List.map_congr_left fun j _ => hinner j, sum_map_const_nat]
  simp

lemma binIndices_lt (f : Frame) : ∀ b ∈ binIndices f, b < HIST_SIZE := by
  intro b hb
  unfold binIndices at hb
  simp only [List.mem_flatMap, List.mem_map, List.mem_range] at hb
  obtain ⟨j, _, i, _, k, hk, rfl⟩ := hb
  have hv : (frameData f (j * f.linesize + i * 3 + k)).val < 256 :=
    (frameData f (j * f.linesize + i * 3 + k)).isLt
  unfold HIST_SIZE
  omega

/-- C3 (amended): for any frame of width W and height H, the sum of its
histogram over all 768 bins is 3 * W * H (each pixel increments one bin per
channel), not W * H. -/
theorem c3_hist_total (f : Frame) :
    ∑ b ∈ Finset.range HIST_SIZE, histF f b = 3 * (f.width * f.height) := by
  unfold histF
  rw [sum_range_count _ _ (binIndices_lt f), length_binIndices]
  ring

set_option maxRecDepth 10000 in
/-- C3 (counterexample): for the 1 x 1 frame f0 the histogram sums to 3 over
the 768 bins, not to width * height = 1, refuting the claim as stated. -/
theorem c3_cx :
    ¬ (∑ b ∈ Finset.range HIST_SIZE, histF f0 b = f0.width * f0.height) := by
  decide

lemma average_foldl (frames : ℕ → Option Frame) (junk : ℕ → ℕ) (j m n : ℕ)
    (hm : m = n + 1) :
    (List.range m).foldl (fun _ i => ((histsRow frames junk i j : ℕ) : ℚ)) 0
      = ((histsRow frames junk n j : ℕ) : ℚ) := by
  subst hm
  rw [List.range_succ, List.foldl_append]
  simp

lemma average_eq_zero (frames : ℕ → Option Frame) (junk : ℕ → ℕ) (n : ℕ)
    (hn : effCount frames = n + 1)
    (h : ∀ j, histsRow frames junk n j = 0) :
    average frames junk = fun _ => 0 := by
  funext j
  simp only [average, hn]
  split
  · rw [average_foldl frames junk j (n + 1) n rfl, h j]
    simp
  · rfl

lemma compute_error_zeroMed (h : ℕ → ℕ) :
    compute_error h (fun _ => 0) =
      ((((List.range HIST_SIZE).map fun i => h i * h i).sum : ℕ) : ℚ) := by
  unfold compute_error
  rw [Nat.cast_list_sum, List.map_map]
  congr 1
  apply List.map_congr_left
  intro i _
  simp only [Function.comp]
  push_cast
  ring

set_option maxRecDepth 10000 in
lemma histF_f0_sq_sum :
    ((List.range HIST_SIZE).map fun i => histF f0 i * histF f0 i).sum = 3 := by
  decide

lemma ce_f0_zero : compute_error (histF f0) (fun _ => 0) = 3 := by
  rw [compute_error_zeroMed, histF_f0_sq_sum]
  norm_num

set_option maxRecDepth 10000 in
lemma ce_zero_zero : compute_error (fun _ => 0) (fun _ => 0) = 0 := by
  rw [compute_error_zeroMed]
  norm_num [show ((List.range HIST_SIZE).map fun i =>
    (fun _ => (0 : ℕ)) i * (fun _ => (0 : ℕ)) i).sum = 0 from by decide]

lemma histF_emptyFrame_fun : histF emptyFrame = fun _ => 0 := by
  funext b
  rfl

lemma zeroJunk_fun : zeroJunk = fun _ => (0 : ℕ) := rfl

lemma foldl_sel_start (sc : ℕ → ℚ) (t : List ℕ) :
    (0 :: t).foldl (fun s i => if i = 0 ∨ sc i < s.2 then (i, sc i) else s) (0, -1)
      = t.foldl (fun s i => if i = 0 ∨ sc i < s.2 then (i, sc i) else s) (0, sc 0) := by
  simp

lemma foldl_sel_skip (sc : ℕ → ℚ) (l : List ℕ) (acc : ℕ × ℚ)
    (h : ∀ i ∈ l, i ≠ 0 ∧ ¬ sc i < acc.2) :
    l.foldl (fun s i => if i = 0 ∨ sc i < s.2 then (i, sc i) else s) acc = acc := by
  induction l with
  | nil => rfl
  | cons a t ih =>
    have ha := h a (List.mem_cons_self a t)
    simp only [List.foldl_cons]
    rw [if_neg (not_or.mpr ⟨ha.1, ha.2⟩)]
    exact ih fun i hi => h i (List.mem_cons_of_mem a hi)

lemma specAverageHist_pair (h : ℕ → ℕ) (b : ℕ) :
    specAverageHist [h, h] b = (h b : ℚ) := by
  simp only [specAverageHist, List.map_cons, List.map_nil, List.sum_cons,
    List.sum_nil, List.length_cons, List.length_nil]
  push_cast
  ring

/-- C1 (code_bug evaluation): for a SampleSet of two identical 1 x 1 frames,
the averaging loop of select_best_frame produces 0 at bin 256 (its outer loop
only covers bins 0..frame_i) and 1/2 at bin 0 (its inner loop assigns rather
than accumulates, leaving the last histogram divided by the count), while the
specified per-bin arithmetic mean of the two sampled histograms is 1 at both
bins. -/
theorem c1_avg_bug :
    average (framesArr (run 0 sessC 3)) zeroJunk 256 = 0 ∧
    specAverageHist ((run 0 sessC 3).collected.map histF) 256 = 1 ∧
    average (framesArr (run 0 sessC 3)) zeroJunk 0 = 1 / 2 ∧
    specAverageHist ((run 0 sessC 3).collected.map histF) 0 = 1 := by
  have hnl : nLeading (framesArr (run 0 sessC 3)) = 2 := by decide
  have hEff : effCount (framesArr (run 0 sessC 3)) = 2 := by
    simp [effCount, hnl, MAX_FRAMES]
  have h1 : framesArr (run 0 sessC 3) 1 = some f0 := rfl
  have hrow1 : histsRow (framesArr (run 0 sessC 3)) zeroJunk 1 = histF f0 := by
    simp [histsRow, h1, MAX_FRAMES]
  have hcoll : (run 0 sessC 3).collected.map histF = [histF f0, histF f0] := rfl
  have hf256 : histF f0 256 = 1 := by decide
  have hf0 : histF f0 0 = 1 := by decide
  refine ⟨?_, ?_, ?_, ?_⟩
  · simp only [average, hEff]
    norm_num
  · rw [hcoll, specAverageHist_pair, hf256]
    norm_num
  · simp only [average, hEff]
    rw [if_pos (by norm_num)]
    rw [average_foldl _ _ _ 2 1 rfl, hrow1, hf0]
    norm_num
  · rw [hcoll, specAverageHist_pair, hf0]
    norm_num

set_option maxRecDepth 10000 in
lemma nLeading_full100 : nLeading full100 = 100 := by
  decide

/-- C2 (code_bug evaluation): on a full SampleSet of 100 collected frames
(all identical, so every genuine candidate has the same error score), the
scan loop leaves frame_i at 100 rather than 99, the scoring loop reads the
out-of-bounds row hists[100] (modelled here as zeroed stack memory), and the
selector returns index 100 — not the lowest index 0 that the stable
lowest-index-wins tie-break demands, and not an index of the SampleSet at
all. -/
theorem c2_overrun :
    nLeading full100 = MAX_FRAMES ∧ select_best_frame full100 zeroJunk = 100 := by
  have hnl : nLeading full100 = 100 := nLeading_full100
  have hEff : effCount full100 = 101 := by simp [effCount, hnl, MAX_FRAMES]
  have hrow100 : histsRow full100 zeroJunk 100 = zeroJunk := by
    simp [histsRow, MAX_FRAMES]
  have havg : average full100 zeroJunk = fun _ => 0 := by
    apply average_eq_zero full100 zeroJunk 100 (by rw [hEff])
    intro j
    rw [hrow100]
    rfl
  have hsc_lt : ∀ i, i < 100 → scores full100 zeroJunk i = 3 := by
    intro i hi
    unfold scores
    rw [havg]
    have hrow : histsRow full100 zeroJunk i = histF f0 := by
      simp [histsRow, full100, MAX_FRAMES, hi]
    rw [hrow, ce_f0_zero]
  have hsc100 : scores full100 zeroJunk 100 = 0 := by
    unfold scores
    rw [havg, hrow100, zeroJunk_fun, ce_zero_zero]
  have hsc0 : scores full100 zeroJunk 0 = 3 := hsc_lt 0 (by norm_num)
  have hbp : bestPair full100 zeroJunk = (100, 0) := by
    unfold bestPair
    rw [hEff, show (101 : ℕ) = 100 + 1 from rfl, List.range_succ,
      List.foldl_append, List.range_succ_eq_map, foldl_sel_start, hsc0]
    rw [foldl_sel_skip (scores full100 zeroJunk) (List.map Nat.succ (List.range 99))
      (0, 3) ?hskip]
    case hskip =>
      intro i hi
      simp only [List.mem_map, List.mem_range] at hi
      obtain ⟨j, hj, rfl⟩ := hi
      refine ⟨Nat.succ_ne_zero j, ?_⟩
      rw [hsc_lt (Nat.succ j) (by omega)]
      norm_num
    simp only [List.foldl_cons, List.foldl_nil]
    rw [hsc100]
    norm_num
  refine ⟨hnl, ?_⟩
  unfold select_best_frame
  rw [hnl]
  norm_num [hbp]

/-- C8 (code_bug evaluation): a session delivering one frame, then a decoder
need-more-input round (which allocates a frame slot that never receives pixel
data), then end of stream, yields a SampleSet of k = 1 collected frame; yet
select_best_frame, whose `!f->data` guard never fires, scores the
allocated-but-empty frame too and returns index 1 — not a valid index into
the SampleSet (it is not < k). -/
theorem c8_invalid_index :
    (run 0 sessA 3).collected.length = 1 ∧
    select_best_frame (framesArr (run 0 sessA 3)) zeroJunk = 1 := by
  have hlen : (run 0 sessA 3).collected.length = 1 := by decide
  have hnl : nLeading (framesArr (run 0 sessA 3)) = 2 := by decide
  have hEff : effCount (framesArr (run 0 sessA 3)) = 2 := by
    simp [effCount, hnl, MAX_FRAMES]
  have h0 : framesArr (run 0 sessA 3) 0 = some f0 := rfl
  have h1 : framesArr (run 0 sessA 3) 1 = some emptyFrame := rfl
  have hrow0 : histsRow (framesArr (run 0 sessA 3)) zeroJunk 0 = histF f0 := by
    simp [histsRow, h0, MAX_FRAMES]
  have hrow1 : histsRow (framesArr (run 0 sessA 3)) zeroJunk 1 = histF emptyFrame := by
    simp [histsRow, h1, MAX_FRAMES]
  have havg : average (framesArr (run 0 sessA 3)) zeroJunk = fun _ => 0 := by
    apply average_eq_zero _ zeroJunk 1 (by rw [hEff])
    intro j
    rw [hrow1, histF_emptyFrame_fun]
  have hsc0 : scores (framesArr (run 0 sessA 3)) zeroJunk 0 = 3 := by
    unfold scores
    rw [havg, hrow0, ce_f0_zero]
  have hsc1 : scores (framesArr (run 0 sessA 3)) zeroJunk 1 = 0 := by
    unfold scores
    rw [havg, hrow1, histF_emptyFrame_fun, ce_zero_zero]
  have hbp : bestPair (framesArr (run 0 sessA 3)) zeroJunk = (1, 0) := by
    unfold bestPair
    rw [hEff, show List.range 2 = 0 :: [1] from rfl, foldl_sel_start, hsc0]
    simp only [List.foldl_cons, List.foldl_nil]
    rw [hsc1]
    norm_num
  refine ⟨hlen, ?_⟩
  unfold select_best_frame
  rw [hnl]
  norm_num [hbp]

/-- C9 (code_bug evaluation): a session delivering two frames, then a
need-more-input round, then end of stream, has a SampleSet of exactly the two
collected frames; yet the never-filled allocated buffer sits at index 2 of
the frames array, its all-zero histogram is the last row the averaging loop
assigns (zeroing the average at bin 0, which would be 1/2 over the same two
frames without it), and it is the frame the selector returns — so a buffer
that never received pixel data both contributes to the average and wins the
selection. -/
theorem c9_phantom_contributes :
    (run 0 sessB 4).collected.length = 2 ∧
    framesArr (run 0 sessB 4) 2 = some emptyFrame ∧
    average (framesArr (run 0 sessB 4)) zeroJunk 0 = 0 ∧
    average clean2 zeroJunk 0 = 1 / 2 ∧
    select_best_frame (framesArr (run 0 sessB 4)) zeroJunk = 2 := by
  have hlen : (run 0 sessB 4).collected.length = 2 := by decide
  have hnl : nLeading (framesArr (run 0 sessB 4)) = 3 := by decide
  have hEff : effCount (framesArr (run 0 sessB 4)) = 3 := by
    simp [effCount, hnl, MAX_FRAMES]
  have h0 : framesArr (run 0 sessB 4) 0 = some f0 := rfl
  have h1 : framesArr (run 0 sessB 4) 1 = some f0 := rfl
  have h2 : framesArr (run 0 sessB 4) 2 = some emptyFrame := rfl
  have hrow0 : histsRow (framesArr (run 0 sessB 4)) zeroJunk 0 = histF f0 := by
    simp [histsRow, h0, MAX_FRAMES]
  have hrow1 : histsRow (framesArr (run 0 sessB 4)) zeroJunk 1 = histF f0 := by
    simp [histsRow, h1, MAX_FRAMES]
  have hrow2 : histsRow (framesArr (run 0 sessB 4)) zeroJunk 2 = histF emptyFrame := by
    simp [histsRow, h2, MAX_FRAMES]
  have havg : average (framesArr (run 0 sessB 4)) zeroJunk = fun _ => 0 := by
    apply average_eq_zero _ zeroJunk 2 (by rw [hEff])
    intro j
    rw [hrow2, histF_emptyFrame_fun]
  have hsc0 : scores (framesArr (run 0 sessB 4)) zeroJunk 0 = 3 := by
    unfold scores
    rw [havg, hrow0, ce_f0_zero]
  have hsc1 : scores (framesArr (run 0 sessB 4)) zeroJunk 1 = 3 := by
    unfold scores
    rw [havg, hrow1, ce_f0_zero]
  have hsc2 : scores (framesArr (run 0 sessB 4)) zeroJunk 2 = 0 := by
    unfold scores
    rw [havg, hrow2, histF_emptyFrame_fun, ce_zero_zero]
  have hbp : bestPair (framesArr (run 0 sessB 4)) zeroJunk = (2, 0) := by
    unfold bestPair
    rw [hEff, show List.range 3 = 0 :: [1, 2] from rfl, foldl_sel_start, hsc0]
    simp only [List.foldl_cons, List.foldl_nil]
    rw [hsc1, hsc2]
    norm_num
  have hclean : average clean2 zeroJunk 0 = 1 / 2 := by
    have hnl2 : nLeading clean2 = 2 := by decide
    have hEff2 : effCount clean2 = 2 := by simp [effCount, hnl2, MAX_FRAMES]
    have hc1 : clean2 1 = some f0 := rfl
    have hrow : histsRow clean2 zeroJunk 1 = histF f0 := by
      simp [histsRow, hc1, MAX_FRAMES]
    have hf0 : histF f0 0 = 1 := by decide
    simp only [average, hEff2]
    rw [if_pos (by norm_num)]
    rw [average_foldl _ _ _ 2 1 rfl, hrow, hf0]
    norm_num
  refine ⟨hlen, h2, ?_, hclean, ?_⟩
  · rw [havg]
  · unfold select_best_frame
    rw [hnl]
    norm_num [hbp]

lemma run_cap_aux (stream : ℤ) (sess : Session) (n : ℕ) :
    (run stream sess n).collected.length ≤ MAX_FRAMES ∧
    ((run stream sess n).done = false →
      (run stream sess n).collected.length < MAX_FRAMES) := by
  induction n with
  | zero => simp [run, initState, MAX_FRAMES]
  | succ n ih =>
    obtain ⟨ih1, ih2⟩ := ih
    show (step stream (sess n) (run stream sess n)).collected.length ≤ MAX_FRAMES ∧
      ((step stream (sess n) (run stream sess n)).done = false →
        (step stream (sess n) (run stream sess n)).collected.length < MAX_FRAMES)
    unfold step
    split_ifs with h1 h2 h3 h4 h5 h6 h7 h8 h9 h10 <;>
      simp_all [MAX_FRAMES] <;> omega

/-- C4 (amended): the SampleSet never exceeds MAX_FRAMES collected frames,
and the moment it reaches MAX_FRAMES the read loop has jumped to the end
label (sampling stops immediately).  The universal termination part of the
claim is refuted separately: see the counterexample. -/
theorem c4_cap (stream : ℤ) (sess : Session) (n : ℕ) :
    (run stream sess n).collected.length ≤ MAX_FRAMES ∧
    ((run stream sess n).collected.length = MAX_FRAMES →
      (run stream sess n).done = true) := by
  obtain ⟨h1, h2⟩ := run_cap_aux stream sess n
  refine ⟨h1, fun hl => ?_⟩
  by_contra hd
  rw [Bool.not_eq_true] at hd
  have := h2 hd
  omega

/-- C4 (witness): a session that yields a decodable frame on every round is
stopped by the cap after exactly 100 collected frames. -/
theorem c4_cap_witness :
    (run 0 sessE 100).collected.length = 100 ∧ (run 0 sessE 100).done = true := by
  have hl : (run 0 sessE 100).collected.length = 100 := by decide
  exact ⟨hl, (c4_cap 0 sessE 100).2 hl⟩

lemma run_sessOther (n : ℕ) : run 0 sessOther n = initState := by
  induction n with
  | zero => rfl
  | succ n ih =>
    show step 0 (sessOther n) (run 0 sessOther n) = initState
    rw [ih]
    rfl

/-- C4 (counterexample): a decode session that never reports end of stream
and only ever yields packets of a non-target stream makes the read loop run
forever — the claim that the sampler terminates for every decode session is
false. -/
theorem c4_cx : ¬ SamplerTerminates 0 sessOther := by
  rintro ⟨n, hn⟩
  rw [run_sessOther n] at hn
  exact absurd hn (by simp [initState])

/-- C5: whenever the read loop has ended with err = 0 or err = AVERROR_EOF
(normal completion or clean end of stream) and zero frames were collected,
extract_video_image returns the NoFramesDecoded error (-1) and produces no
output image. -/
theorem c5_no_frames (stream : ℤ) (sess : Session) (n : ℕ) (junk : ℕ → ℕ)
    (oobF : Frame) (swsOk : Bool) (scaleRet : ℤ)
    (hdone : (run stream sess n).done = true)
    (herr : (run stream sess n).err = AVERROR_EOF ∨ (run stream sess n).err = 0)
    (hempty : (run stream sess n).collected.length = 0) :
    finish (run stream sess n) junk oobF swsOk scaleRet = .error (-1) := by
  unfold finish
  rcases herr with h | h <;> rw [h] <;> norm_num [hempty, AVERROR_EOF]

/-- C5 (witness): a session reporting end of stream on its first round ends
sampling with zero frames, and the pipeline returns -1. -/
theorem c5_witness :
    finish (run 0 sessF 1) zeroJunk emptyFrame true 0 = .error (-1) :=
  c5_no_frames 0 sessF 1 zeroJunk emptyFrame true 0 (by decide)
    (Or.inl (by decide)) (by decide)

lemma collected_data (stream : ℤ) (sess : Session) (hwf : SessionWF sess) :
    ∀ n, ∀ f ∈ (run stream sess n).collected, f.data0.isSome = true := by
  intro n
  induction n with
  | zero => simp [run, initState]
  | succ n ih =>
    show ∀ f ∈ (step stream (sess n) (run stream sess n)).collected, _
    unfold step
    split_ifs with h1 h2 h3 h4 h5 h6 h7 h8 h9 h10 <;> intro f hf <;>
      first
        | exact ih f hf
        | (simp only [List.mem_append, List.mem_singleton] at hf
           rcases hf with hf | rfl
           · exact ih f hf
           · exact hwf n h6)

/-- C6: when the read loop is still running and the demuxer returns the
generic read failure -1, the loop jumps to the end label, and it silences
the error (err = 0, so selection proceeds over the collected frames) exactly
when at least one frame has been collected and that first frame's pixel data
is present; with zero collected frames the failure is propagated: err stays
-1 and the pipeline returns error -1 with no output image. -/
theorem c6_quirk (stream : ℤ) (sess : Session) (hwf : SessionWF sess) (n : ℕ)
    (junk : ℕ → ℕ) (oobF : Frame) (swsOk : Bool) (scaleRet : ℤ)
    (hd : (run stream sess n).done = false) (hr : (sess n).read = -1) :
    (run stream sess (n + 1)).done = true ∧
    ((run stream sess (n + 1)).err = 0 ↔
      1 ≤ (run stream sess n).collected.length ∧
        ∃ f, (run stream sess n).collected.head? = some f ∧
          f.data0.isSome = true) ∧
    ((run stream sess n).collected.length = 0 →
      (run stream sess (n + 1)).err = -1 ∧
      finish (run stream sess (n + 1)) junk oobF swsOk scaleRet
        = .error (-1)) := by
  have hstep : run stream sess (n + 1) = step stream (sess n) (run stream sess n) := rfl
  by_cases hlen : (run stream sess n).collected.length = 0
  · have hs : run stream sess (n + 1)
        = { run stream sess n with err := -1, done := true } := by
      rw [hstep]
      unfold step
      rw [hd, hr]
      norm_num [hlen]
    refine ⟨by rw [hs], ?_, fun _ => ⟨by rw [hs], ?_⟩⟩
    · rw [hs]
      constructor
      · intro h
        exact absurd h (by norm_num)
      · rintro ⟨h1, -⟩
        omega
    · rw [hs]
      unfold finish
      norm_num [hlen, AVERROR_EOF]
  · have hs : run stream sess (n + 1)
        = { run stream sess n with err := 0, done := true } := by
      rw [hstep]
      unfold step
      rw [hd, hr]
      norm_num [hlen]
    obtain ⟨g, t, hgt⟩ : ∃ g t, (run stream sess n).collected = g :: t := by
      cases hc : (run stream sess n).collected with
      | nil => rw [hc] at hlen; simp at hlen
      | cons g t => exact ⟨g, t, rfl⟩
    refine ⟨by rw [hs], ?_, fun h => absurd h hlen⟩
    rw [hs]
    constructor
    · intro _
      refine ⟨by omega, g, ?_, ?_⟩
      · rw [hgt]
        rfl
      · exact collected_data stream sess hwf n g (by rw [hgt]; exact List.mem_cons_self g t)
    · intro _
      rfl

/-- C6 (witness): one collected frame followed by the generic read failure:
the loop ends with the error silenced. -/
theorem c6_witness :
    (run 0 sessD 2).done = true ∧ (run 0 sessD 2).err = 0 := by
  have hwf : SessionWF sessD := by
    intro n h
    by_cases hn : n = 0
    · subst hn
      rfl
    · exfalso
      norm_num [sessD, hn, evQuirk, AVERROR_EAGAIN] at h
  have h := c6_quirk 0 sessD hwf 1 zeroJunk emptyFrame true 0 (by decide) (by decide)
  exact ⟨h.1, h.2.1.mpr ⟨by decide, f0, rfl, rfl⟩⟩

/-- C7 (counterexample): the conversion transform reports an error
(sws_scale result -1), yet encode_frame still returns success with a filled
output image — the claim that a transform error yields ConversionFailed is
false of the code, which discards the sws_scale return value. -/
theorem c7_cx :
    encode_frame true (-1) f0
      = .ok { width := 1, height := 1, size := 4, stride := 4 } := rfl

/-- C7 (amended): encode_frame fails with AVERROR(ENOMEM) — the
ConversionInitFailed case — whenever the conversion context cannot be
created, and no output image is produced; but the transform's own result is
ignored: the outcome of encode_frame does not depend on the sws_scale return
value at all. -/
theorem c7_conversion (f : Frame) (scaleRet scaleRet' : ℤ) :
    encode_frame false scaleRet f = .error AVERROR_ENOMEM ∧
    encode_frame true scaleRet f = encode_frame true scaleRet' f :=
  ⟨rfl, rfl⟩

/-- C10: whenever the pipeline succeeds (the conversion context is created
and a Buffer is returned), the output image has the selected frame's width
and height, a byte size of exactly width * height * 4, and a row stride of
exactly width * 4 — packed RGBA with no padding. -/
theorem c10_output_layout (st : SState) (junk : ℕ → ℕ) (oobF : Frame)
    (scaleRet : ℤ) (b : Buffer)
    (h : finish st junk oobF true scaleRet = .ok b) :
    b.width = (selFrame st junk oobF).width ∧
    b.height = (selFrame st junk oobF).height ∧
    b.size = b.width * b.height * 4 ∧
    b.stride = b.width * 4 := by
  unfold finish at h
  split_ifs at h <;>
    first
      | exact absurd h (by simp)
      | (unfold encode_frame at h
         rw [if_neg (by simp)] at h
         rw [Except.ok.injEq] at h
         subst h
         refine ⟨rfl, rfl, ?_, ?_⟩
         · show av_image_get_buffer_size _ _ = _
           unfold av_image_get_buffer_size
           ring
         · show 4 * _ = _
           ring)

/-- C10 (witness): a one-frame session that then hits end of stream yields a
1 x 1 output image with size 4 and stride 4. -/
theorem c10_witness :
    (Buffer.mk 1 1 4 4).width = (selFrame (run 0 sessG 2) zeroJunk emptyFrame).width ∧
    (Buffer.mk 1 1 4 4).height = (selFrame (run 0 sessG 2) zeroJunk emptyFrame).height ∧
    (Buffer.mk 1 1 4 4).size = (Buffer.mk 1 1 4 4).width * (Buffer.mk 1 1 4 4).height * 4 ∧
    (Buffer.mk 1 1 4 4).stride = (Buffer.mk 1 1 4 4).width * 4 :=
  c10_output_layout (run 0 sessG 2) zeroJunk emptyFrame 0 (Buffer.mk 1 1 4 4) (by rfl)
